import Mathlib

/-!
Shallow embedding of `downstate_dashboard.py`: a Streamlit dashboard that
fetches publication records from the OpenAlex API (cursor pagination),
normalizes them into a row table, filters by a year range and renders
summary metrics and top-10 frequency charts.

JSON dictionary keys are modelled with a three-state field type: a key can
be absent, present with a null value, or present with a value.  Python's
`dict.get(k, default)` returns the default only when the key is absent; a
present null is returned as `None`.  Exceptions raised during extraction
are modelled as `none` / `Except.error`.
-/

namespace Downstate

/-- A JSON object field: absent key, present-but-null, or a value. -/
inductive JField (α : Type) where
  | absent : JField α
  | null : JField α
  | val : α → JField α
deriving DecidableEq

/-- Python `d.get(k, default)`: the default only applies when the key is
absent; a present null is surfaced as `None` (here: `none`). -/
def jgetD {α : Type} (f : JField α) (d : α) : Option α :=
  match f with
  | .absent => some d
  | .null => none
  | .val a => some a

/-- Python `d.get(k)` with no default: `None` for absent and for null. -/
def jgetOpt {α : Type} (f : JField α) : Option α :=
  match f with
  | .absent => none
  | .null => none
  | .val a => some a

/-- `work["authorships"][i]["author"]` value object. -/
structure Author where
  display_name : JField String
deriving DecidableEq

/-- One element of `work["authorships"]`. -/
structure Authorship where
  author : JField Author
deriving DecidableEq

/-- One element of `work["concepts"]`. -/
structure Concept where
  display_name : JField String
deriving DecidableEq

/-- `work["open_access"]` value object. -/
structure OpenAccess where
  is_oa : JField Bool
deriving DecidableEq

/-- A raw OpenAlex work record, with every key optionally absent or null. -/
structure RawWork where
  title : JField String
  publication_year : JField Int
  cited_by_count : JField Int
  open_access : JField OpenAccess
  type : JField String
  authorships : JField (List Authorship)
  doi : JField String
  concepts : JField (List Concept)
deriving DecidableEq

/-- One row of the normalized table built by `process_data`.  Cells that
Python may hold as `None` are `Option`s (`none` = a null cell). -/
structure Row where
  title : Option String
  year : Option Int
  citations : Option Int
  oa : Option Bool
  type : Option String
  authors : String
  doi : Option String
  topics : String
deriving DecidableEq

/-! ## Fetcher: `get_all_downstate_publications` -/

/-- `response.json()["meta"]` object. -/
structure MetaObj where
  next_cursor : JField String
deriving DecidableEq

/-- One HTTP response of the paginated fetch: a status code and the decoded
JSON body (`results` array and `meta` object, either possibly missing). -/
structure ApiResponse where
  status : Nat
  results : JField (List RawWork)
  meta : JField MetaObj
deriving DecidableEq

/-- What one run of the fetch loop produces: the accumulated `all_results`
list, whether `st.error` was shown (the recoverable-error signal), and how
many HTTP requests were issued. -/
structure FetchResult where
  all_results : List RawWork
  errored : Bool
  requests : Nat
deriving DecidableEq

/-- Python truthiness of `data["meta"].get("next_cursor")`: the loop
continues only on a present, non-null, non-empty cursor string
(`if not next_cursor: break`). -/
def cursorVal : JField String → Option String
  | .val s => if s = "" then none else some s
  | _ => none

/-- The cursor-pagination fetch loop, run against a script of responses
(the n-th element answers the n-th request).  Mirrors the Python loop:
a non-200 status shows `st.error` and breaks; `data["results"]` and
`data["meta"]` are mandatory key lookups whose failure is an uncaught
exception (`Except.error`); a falsy `next_cursor` ends the loop.
An exhausted script (never reached for terminated scripts) yields the
initial accumulator. -/
def get_all_downstate_publications : List ApiResponse → Except Unit FetchResult
  | [] => .ok ⟨[], false, 0⟩
  | r :: rest =>
    if r.status ≠ 200 then .ok ⟨[], true, 1⟩
    else
      match r.results with
      | .val res =>
        match r.meta with
        | .val m =>
          match cursorVal m.next_cursor with
          | none => .ok ⟨res, false, 1⟩
          | some _ =>
            match get_all_downstate_publications rest with
            | .ok fr => .ok ⟨res ++ fr.all_results, fr.errored, fr.requests + 1⟩
            | .error e => .error e
        | _ => .error ()
      | _ => .error ()

/-! ## Normalizer: `process_data` -/

/-- Extraction of `[a["author"]["display_name"] for a in authorships]`:
`none` when any lookup raises (absent `author` / `display_name`, null
`author`) or when a null `display_name` later breaks `", ".join`. -/
def authorNames : List Authorship → Option (List String)
  | [] => some []
  | a :: rest =>
    match a.author with
    | .val au =>
      match au.display_name with
      | .val n => (authorNames rest).map (n :: ·)
      | _ => none
    | _ => none

/-- Extraction of `[c["display_name"] for c in concepts]`, as above. -/
def conceptNames : List Concept → Option (List String)
  | [] => some []
  | c :: rest =>
    match c.display_name with
    | .val n => (conceptNames rest).map (n :: ·)
    | _ => none

/-- `", ".join(...) if work.get("authorships") else "Unknown"`:
a falsy `authorships` (absent, null or the empty list) yields `"Unknown"`;
otherwise every author's display name is joined — all of them, with no
truncation. `none` models an exception during the list comprehension. -/
def authorsCell (f : JField (List Authorship)) : Option String :=
  match f with
  | .val (a :: rest) => (authorNames (a :: rest)).map (String.intercalate ", ")
  | _ => some "Unknown"

/-- `", ".join(...) if work.get("concepts") else "No topics"`. -/
def topicsCell (f : JField (List Concept)) : Option String :=
  match f with
  | .val (c :: rest) => (conceptNames (c :: rest)).map (String.intercalate ", ")
  | _ => some "No topics"

/-- `work.get("open_access", {}).get("is_oa", False)`: an absent key gives
`False`; a present null raises (`None.get`), modelled as the outer `none`;
a present object applies `get("is_oa", False)` (inner `none` = a null
`is_oa` surfaced as a `None` cell, not an exception). -/
def oaCellOf : JField OpenAccess → Option (Option Bool)
  | .absent => some (some false)
  | .null => none
  | .val obj => some (jgetD obj.is_oa false)

/-- Build one row dict from a raw work.  `none` means the `try` body raised
and the record is skipped with a warning. -/
def makeEntry (w : RawWork) : Option Row :=
  (oaCellOf w.open_access).bind fun oa =>
  (authorsCell w.authorships).bind fun as =>
  (topicsCell w.concepts).map fun ts =>
    { title := jgetD w.title "No title"
      year := jgetOpt w.publication_year
      citations := jgetD w.cited_by_count 0
      oa := oa
      type := jgetD w.type "unknown"
      authors := as
      doi := jgetD w.doi "No DOI"
      topics := ts }

/-- `process_data`: one row per record whose extraction succeeds, in input
order; the second component counts the `st.warning` calls (one per skipped
record). -/
def process_data : List RawWork → List Row × Nat
  | [] => ([], 0)
  | w :: rest =>
    match makeEntry w with
    | some r => (r :: (process_data rest).1, (process_data rest).2)
    | none => ((process_data rest).1, (process_data rest).2 + 1)

/-! ## Filter / aggregate layer (`main`) -/

/-- The boolean mask of `df[(df["Year"] >= lo) & (df["Year"] <= hi)]`,
given that the `Year` column exists: a pandas comparison of a null (`NaN`)
`Year` with any bound is false, so a null-year row never passes the mask.
The column lookup itself can fail first — see `yearFilterOnTable`. -/
def yearFilter (lo hi : Int) (rows : List Row) : List Row :=
  rows.filter fun r =>
    match r.year with
    | some y => decide (lo ≤ y ∧ y ≤ hi)
    | none => false

/-- Line 74 as run on the DataFrame `process_data` built: when the row
list is empty, `pd.DataFrame([])` has no columns at all, so `df["Year"]`
raises `KeyError` (`Except.error`); on a nonempty table the line is the
boolean-mask filter `yearFilter`. -/
def yearFilterOnTable (lo hi : Int) (rows : List Row) : Except Unit (List Row) :=
  if rows.isEmpty then .error ()
  else .ok (yearFilter lo hi rows)

/-- The non-null cells of the `OA` column. -/
def oaCells (rows : List Row) : List Bool :=
  rows.filterMap (fun r => r.oa)

/-- `filtered_df["OA"].mean()`: pandas `mean` skips nulls and returns `NaN`
(here `none`) when no value remains — in particular on an empty subset. -/
def oaMean (rows : List Row) : Option ℚ :=
  if (oaCells rows).isEmpty then none
  else some (((oaCells rows).countP (fun b => b = true) : ℚ) / (oaCells rows).length)

/-- The "Open Access Rate" metric value `filtered_df["OA"].mean()*100`
shown to the user (`none` = the `NaN` that formats as `"nan%"`). -/
def openAccessRateMetric (rows : List Row) : Option ℚ :=
  (oaMean rows).map (· * 100)

/-- Left-to-right scan splitting a character list on the two-character
separator `", "` (Python `s.split(", ")` semantics: non-overlapping
matches, empty pieces kept). The first argument accumulates the current
piece in reverse. -/
def splitCommaSpace (cur : List Char) : List Char → List (List Char)
  | [] => [cur.reverse]
  | ',' :: ' ' :: rest => cur.reverse :: splitCommaSpace [] rest
  | c :: rest => splitCommaSpace (c :: cur) rest

/-- `s.split(", ")` on strings. -/
def pySplitCommaSpace (s : String) : List String :=
  (splitCommaSpace [] s.data).map List.asString

/-- `filtered_df[col].str.split(", ").explode()`: split each row's cell on
`", "` and flatten across rows. -/
def explodeField (f : Row → String) (rows : List Row) : List String :=
  (rows.map f).foldr (fun s acc => pySplitCommaSpace s ++ acc) []

/-- Occurrence counts in first-encounter order (the counting step behind
`value_counts`). -/
def countOcc (vs : List String) : List (String × Nat) :=
  vs.foldl
    (fun acc v =>
      if acc.any (fun p => p.1 = v) then
        acc.map (fun p => if p.1 = v then (p.1, p.2 + 1) else p)
      else acc ++ [(v, 1)])
    []

/-- Insert one (value, count) pair into a list kept in descending count
order, after any pair of equal count (a stable descending sort step). -/
def insertByCount (p : String × Nat) : List (String × Nat) → List (String × Nat)
  | [] => [p]
  | q :: rest => if q.2 < p.2 then p :: q :: rest else q :: insertByCount p rest

/-- Stable sort by descending count (`value_counts` sorts descending;
ties keep the counting step's first-encounter order). -/
def sortByCountDesc (l : List (String × Nat)) : List (String × Nat) :=
  l.foldl (fun acc p => insertByCount p acc) []

/-- `series.value_counts()`: frequency of each distinct string, descending. -/
def value_counts (vs : List String) : List (String × Nat) :=
  sortByCountDesc (countOcc vs)

/-- `series.value_counts().head(10)` over an exploded multi-value column. -/
def topTen (f : Row → String) (rows : List Row) : List (String × Nat) :=
  (value_counts (explodeField f rows)).take 10

/-- The "Top Research Topics" data (tab 2). -/
def topTenTopics (rows : List Row) : List (String × Nat) :=
  topTen (fun r => r.topics) rows

/-- The "Most Prolific Authors" data (tab 3). -/
def topTenAuthors (rows : List Row) : List (String × Nat) :=
  topTen (fun r => r.authors) rows

/-- Descending-count order on (value, count) pairs. -/
def countGE (a b : String × Nat) : Prop := b.2 ≤ a.2

instance : DecidableRel countGE := fun a b => inferInstanceAs (Decidable (b.2 ≤ a.2))

/-! ## Concrete sample data -/

/-- A raw work with every field present (end-to-end scenario 1's record). -/
def workFull : RawWork :=
  { title := .val "A", publication_year := .val 2020, cited_by_count := .val 5,
    open_access := .val ⟨.val true⟩, type := .val "article",
    authorships := .val [⟨.val ⟨.val "X"⟩⟩], doi := .val "d1",
    concepts := .val [⟨.val "Biology"⟩] }

/-- The same record with the `publication_year` key removed. -/
def workNoYear : RawWork :=
  { workFull with publication_year := .absent }

/-- The row `process_data` builds from `workFull`. -/
def rowFull : Row :=
  { title := some "A", year := some 2020, citations := some 5, oa := some true,
    type := some "article", authors := "X", doi := some "d1", topics := "Biology" }

/-- The row `process_data` builds from a record with no year. -/
def rowNoYear : Row :=
  { rowFull with year := none }

/-- Six authorship entries, all well-formed. -/
def sixAuthorships : List Authorship :=
  [⟨.val ⟨.val "A1"⟩⟩, ⟨.val ⟨.val "A2"⟩⟩, ⟨.val ⟨.val "A3"⟩⟩,
   ⟨.val ⟨.val "A4"⟩⟩, ⟨.val ⟨.val "A5"⟩⟩, ⟨.val ⟨.val "A6"⟩⟩]

/-- A raw work with six authors. -/
def workSixAuthors : RawWork :=
  { workFull with authorships := .val sixAuthorships }

/-- The row `process_data` builds from `workSixAuthors`. -/
def rowSix : Row :=
  { rowFull with authors := "A1, A2, A3, A4, A5, A6" }

/-- A first-page response with a failing HTTP status. -/
def badPage : ApiResponse :=
  ⟨500, .absent, .absent⟩

/-- A well-formed 200 page whose cursor points at a next page. -/
def goodPage1 : ApiResponse :=
  ⟨200, .val [workFull], .val ⟨.val "abc"⟩⟩

/-- A well-formed 200 page with no `next_cursor` key (pagination end). -/
def lastPage : ApiResponse :=
  ⟨200, .val [workNoYear], .val ⟨.absent⟩⟩

/-- A 200 response whose body has a null `results` and no `meta` key. -/
def nullResultsPage : ApiResponse :=
  ⟨200, .null, .absent⟩

/-- A record whose `open_access` key is present but null. -/
def workNullOA : RawWork :=
  { workFull with open_access := .null }

/-- A record with no `open_access` key at all. -/
def workNoOAKey : RawWork :=
  { workFull with open_access := .absent }

/-- The row built from `workNoOAKey` (`OA` defaulted to false). -/
def rowNoOAKey : Row :=
  { rowFull with oa := some false }

/-- A record whose `title` key is present but null. -/
def workNullTitle : RawWork :=
  { workFull with title := .null }

/-- The row built from `workNullTitle` (`Title` is a null cell). -/
def rowNullTitle : Row :=
  { rowFull with title := none }

/-- A record with no `authorships` key at all. -/
def workNoAuthors : RawWork :=
  { workFull with authorships := .absent }

/-- The row built from `workNoAuthors` (`Authors` falls back to
"Unknown"). -/
def rowNoAuthors : Row :=
  { rowFull with authors := "Unknown" }

/-! ## Fetch helper notions -/

/-- The `results` array a page contributes (empty if the key is missing,
in which case the loop errors before using it). -/
def pageResults (p : ApiResponse) : List RawWork :=
  match p.results with
  | .val v => v
  | _ => []

/-- Concatenation of the `results` arrays of a list of pages, in order. -/
def pagesResults : List ApiResponse → List RawWork
  | [] => []
  | p :: rest => pageResults p ++ pagesResults rest

/-- A page the loop fully consumes and then continues past: status 200,
both mandatory keys present, and a truthy `next_cursor`. -/
def GoodPage (p : ApiResponse) : Prop :=
  p.status = 200 ∧ (∃ v, p.results = .val v) ∧
    ∃ m, p.meta = .val m ∧ (cursorVal m.next_cursor).isSome = true

/-- Stepping the fetch loop over one good page prepends its results and
counts one request. -/
theorem get_all_cons_good {p : ApiResponse} (hp : GoodPage p)
    (rest : List ApiResponse) :
    get_all_downstate_publications (p :: rest) =
      match get_all_downstate_publications rest with
      | .ok fr => .ok ⟨pageResults p ++ fr.all_results, fr.errored, fr.requests + 1⟩
      | .error e => .error e := by
  obtain ⟨h200, ⟨v, hv⟩, m, hm, hc⟩ := hp
  rw [Option.isSome_iff_exists] at hc
  obtain ⟨c, hc⟩ := hc
  cases hrec : get_all_downstate_publications rest with
  | ok fr => simp [get_all_downstate_publications, h200, hv, hm, hc, hrec, pageResults]
  | error e => simp [get_all_downstate_publications, h200, hv, hm, hc, hrec]

/-- Stepping the fetch loop over a well-formed 200 page with a falsy
cursor stops after that single request with its results. -/
theorem get_all_cons_stop {p : ApiResponse} {v : List RawWork} {m : MetaObj}
    (h200 : p.status = 200) (hres : p.results = .val v) (hmeta : p.meta = .val m)
    (hcur : cursorVal m.next_cursor = none) (rest : List ApiResponse) :
    get_all_downstate_publications (p :: rest) = .ok ⟨v, false, 1⟩ := by
  simp [get_all_downstate_publications, h200, hres, hmeta, hcur]

/-- Running the fetch loop through a block of good pages accumulates their
results in order and adds one request per page. -/
theorem get_all_append_good {pfx : List ApiResponse} (h : ∀ p ∈ pfx, GoodPage p)
    (rest : List ApiResponse) :
    get_all_downstate_publications (pfx ++ rest) =
      match get_all_downstate_publications rest with
      | .ok fr =>
          .ok ⟨pagesResults pfx ++ fr.all_results, fr.errored, fr.requests + pfx.length⟩
      | .error e => .error e := by
  induction pfx with
  | nil =>
    cases hrec : get_all_downstate_publications rest <;> simp [pagesResults, hrec]
  | cons p ps ih =>
    have hp : GoodPage p := h p (List.mem_cons_self p ps)
    have hps : ∀ q ∈ ps, GoodPage q := fun q hq => h q (List.mem_cons_of_mem p hq)
    rw [List.cons_append, get_all_cons_good hp, ih hps]
    cases get_all_downstate_publications rest with
    | ok fr => simp [pagesResults, List.append_assoc]; omega
    | error e => rfl

/-- Inversion of a successful `makeEntry`: each cell of the produced row
is the corresponding extraction of the raw record. -/
theorem makeEntry_inv {w : RawWork} {row : Row} (h : makeEntry w = some row) :
    row.title = jgetD w.title "No title" ∧
    row.year = jgetOpt w.publication_year ∧
    oaCellOf w.open_access = some row.oa ∧
    authorsCell w.authorships = some row.authors ∧
    topicsCell w.concepts = some row.topics := by
  rw [makeEntry, Option.bind_eq_some] at h
  obtain ⟨oa, hoa, h⟩ := h
  rw [Option.bind_eq_some] at h
  obtain ⟨as, has, h⟩ := h
  rw [Option.map_eq_some'] at h
  obtain ⟨ts, hts, h⟩ := h
  subst h
  exact ⟨rfl, rfl, hoa, has, hts⟩

/-- Pages the fetch loop consumed on a no-exception run: every requested
page with a 200 status had both `results` and `meta` present. -/
theorem get_all_ok_pages_wellformed :
    ∀ (script : List ApiResponse) (fr : FetchResult),
      get_all_downstate_publications script = .ok fr →
      ∀ (i : Nat) (r : ApiResponse), i < fr.requests → script.get? i = some r →
        r.status = 200 → (∃ v, r.results = .val v) ∧ ∃ m, r.meta = .val m := by
  intro script
  induction script with
  | nil =>
    intro fr h i r hi hg _
    rw [get_all_downstate_publications] at h
    cases h
    simp at hi
  | cons p ps ih =>
    intro fr h i r hi hg h200
    rw [get_all_downstate_publications] at h
    by_cases hs : p.status = 200
    · rw [if_neg (by simp [hs])] at h
      split at h
      · rename_i res hres
        split at h
        · rename_i m hmeta
          split at h
          · cases h
            cases i with
            | zero =>
              rw [List.get?_cons_zero] at hg
              cases hg
              exact ⟨⟨res, hres⟩, m, hmeta⟩
            | succ j => simp at hi
          · split at h
            · rename_i fr2 hrec
              cases h
              cases i with
              | zero =>
                rw [List.get?_cons_zero] at hg
                cases hg
                exact ⟨⟨res, hres⟩, m, hmeta⟩
              | succ j =>
                rw [List.get?_cons_succ] at hg
                exact ih fr2 hrec j r (by simpa using hi) hg h200
            · cases h
        · cases h
      · cases h
    · rw [if_pos hs] at h
      cases h
      cases i with
      | zero =>
        rw [List.get?_cons_zero] at hg
        cases hg
        exact absurd h200 hs
      | succ j => simp at hi

/-- Membership after an insertion step: the inserted pair or an old one. -/
theorem mem_insertByCount {x p : String × Nat} : ∀ {l : List (String × Nat)},
    x ∈ insertByCount p l → x = p ∨ x ∈ l := by
  intro l
  induction l with
  | nil =>
    intro h
    rw [insertByCount] at h
    exact Or.inl (List.mem_singleton.mp h)
  | cons q rest ih =>
    intro h
    rw [insertByCount] at h
    by_cases hq : q.2 < p.2
    · rw [if_pos hq] at h
      rcases List.mem_cons.mp h with h1 | h2
      · exact Or.inl h1
      · exact Or.inr h2
    · rw [if_neg hq] at h
      rcases List.mem_cons.mp h with h1 | h2
      · exact Or.inr (h1 ▸ List.mem_cons_self q rest)
      · rcases ih h2 with h3 | h4
        · exact Or.inl h3
        · exact Or.inr (List.mem_cons_of_mem q h4)

/-- Insertion keeps the list sorted by descending count. -/
theorem sorted_insertByCount (p : String × Nat) : ∀ {l : List (String × Nat)},
    List.Sorted countGE l → List.Sorted countGE (insertByCount p l) := by
  intro l
  induction l with
  | nil => intro _; simp [insertByCount, List.sorted_singleton]
  | cons q rest ih =>
    intro h
    rw [List.sorted_cons] at h
    obtain ⟨hq, hrest⟩ := h
    rw [insertByCount]
    by_cases hlt : q.2 < p.2
    · rw [if_pos hlt, List.sorted_cons]
      refine ⟨?_, List.sorted_cons.mpr ⟨hq, hrest⟩⟩
      intro b hb
      rcases List.mem_cons.mp hb with h1 | h2
      · subst h1
        exact Nat.le_of_lt hlt
      · exact le_trans (hq b h2) (Nat.le_of_lt hlt)
    · rw [if_neg hlt, List.sorted_cons]
      refine ⟨?_, ih hrest⟩
      intro b hb
      rcases mem_insertByCount hb with h1 | h2
      · subst h1
        exact Nat.le_of_not_lt hlt
      · exact hq b h2

/-- Folding insertion over any start keeps the result sorted. -/
theorem sorted_foldl_insert : ∀ (l acc : List (String × Nat)),
    List.Sorted countGE acc →
    List.Sorted countGE (l.foldl (fun a p => insertByCount p a) acc)
  | [], _, h => h
  | p :: rest, acc, h => sorted_foldl_insert rest _ (sorted_insertByCount p h)

/-- `sortByCountDesc` sorts by descending count. -/
theorem sorted_sortByCountDesc (l : List (String × Nat)) :
    List.Sorted countGE (sortByCountDesc l) :=
  sorted_foldl_insert l [] List.sorted_nil

/-! ## Claims -/

/-- Claim C1, counterexample: the record `workNoYear` has no
`publication_year` key, yet `process_data` emits a row for it — with a
null `Year`, not an integer — so the normalizer neither gives every row an
integer `Year` nor drops year-less records. -/
theorem process_data_missing_year_counterexample :
    (process_data [workNoYear]).1.length = 1 ∧
    (process_data [workNoYear]).1.map (fun r => r.year) = [none] := by
  decide

/-- Claim C1, amended: `process_data` never drops a record for a missing
`publication_year`; a record whose extraction raises no exception always
yields a row (and no warning), and its `Year` is null when the year key is
absent. -/
theorem process_data_missing_year_kept :
    ∀ (w : RawWork) (rest : List RawWork) (row : Row),
      w.publication_year = .absent → makeEntry w = some row →
      process_data (w :: rest) =
        (row :: (process_data rest).1, (process_data rest).2) ∧
      row.year = none := by
  intro w rest row hw h
  refine ⟨by simp [process_data, h], ?_⟩
  have hy := (makeEntry_inv h).2.1
  rw [hy, hw]
  rfl

/-- Claim C1 witness: the amended theorem applied to `workNoYear`. -/
theorem process_data_missing_year_kept_witness :
    process_data [workNoYear] = ([rowNoYear], 0) ∧ rowNoYear.year = none := by
  have h := process_data_missing_year_kept workNoYear [] rowNoYear rfl (by decide)
  exact ⟨h.1, h.2⟩

/-- Claim C2, code bug: with a row present but an inverted (`lo > hi`)
slider range the filtered subset is empty, and the Open Access Rate
computed by `main` (`filtered_df["OA"].mean()*100`) is the NaN value
(`none` here), which the f-string formats as `"nan%"` straight into the
metric shown to the user; `main` has no "no data" notice and no branch
that skips chart rendering. -/
theorem openAccessRate_nan_on_empty_subset :
    yearFilter 2005 2003 [rowFull] = [] ∧
    openAccessRateMetric (yearFilter 2005 2003 [rowFull]) = none := by
  exact ⟨by decide, rfl⟩

/-- Claim C3: a non-200 status on the first request makes the fetcher
return an empty list with the recoverable-error flag set after exactly one
request, without raising; a non-200 status after a run of good pages
aborts the loop right there, retries nothing, and returns exactly the
pages already accumulated. -/
theorem fetch_non200_aborts_with_partial_results :
    (∀ (r : ApiResponse) (rest : List ApiResponse), r.status ≠ 200 →
      get_all_downstate_publications (r :: rest) = .ok ⟨[], true, 1⟩) ∧
    (∀ (pfx : List ApiResponse) (r : ApiResponse) (rest : List ApiResponse),
      (∀ p ∈ pfx, GoodPage p) → r.status ≠ 200 →
      get_all_downstate_publications (pfx ++ r :: rest) =
        .ok ⟨pagesResults pfx, true, pfx.length + 1⟩) := by
  have first : ∀ (r : ApiResponse) (rest : List ApiResponse), r.status ≠ 200 →
      get_all_downstate_publications (r :: rest) = .ok ⟨[], true, 1⟩ := by
    intro r rest h
    rw [get_all_downstate_publications, if_pos h]
  refine ⟨first, ?_⟩
  intro pfx r rest hg h
  rw [get_all_append_good hg, first r rest h]
  simp [Nat.add_comm]

/-- Claim C3 witness: a failing first page, and a failure right after one
good page. -/
theorem fetch_non200_aborts_witness :
    get_all_downstate_publications [badPage] = .ok ⟨[], true, 1⟩ ∧
    get_all_downstate_publications [goodPage1, badPage] =
      .ok ⟨[workFull], true, 2⟩ := by
  constructor
  · exact fetch_non200_aborts_with_partial_results.1 badPage [] (by decide)
  · have hg : ∀ p ∈ [goodPage1], GoodPage p := by
      intro p hp
      rw [List.mem_singleton] at hp
      subst hp
      exact ⟨rfl, ⟨[workFull], rfl⟩, ⟨.val "abc"⟩, rfl, by decide⟩
    exact fetch_non200_aborts_with_partial_results.2 [goodPage1] badPage [] hg
      (by decide)

/-- Claim C4: the two-page scenario (first page `next_cursor="abc"`,
second page without the key) returns both pages' results concatenated in
order after exactly two requests; in general a run of good pages ending in
a cursor-less 200 page yields all pages' results in order, one request per
page. -/
theorem fetch_follows_cursors_until_none :
    (∀ (r1 r2 : List RawWork),
      get_all_downstate_publications
        [⟨200, .val r1, .val ⟨.val "abc"⟩⟩, ⟨200, .val r2, .val ⟨.absent⟩⟩] =
        .ok ⟨r1 ++ r2, false, 2⟩) ∧
    (∀ (pfx : List ApiResponse) (lastp : ApiResponse) (v : List RawWork)
        (m : MetaObj),
      (∀ p ∈ pfx, GoodPage p) → lastp.status = 200 → lastp.results = .val v →
      lastp.meta = .val m → cursorVal m.next_cursor = none →
      get_all_downstate_publications (pfx ++ [lastp]) =
        .ok ⟨pagesResults pfx ++ v, false, pfx.length + 1⟩) := by
  constructor
  · intro r1 r2
    rfl
  · intro pfx lastp v m hg h200 hres hmeta hcur
    rw [get_all_append_good hg, get_all_cons_stop h200 hres hmeta hcur []]
    simp [Nat.add_comm]

/-- Claim C4 witness: the general cursor-following conjunct applied to one
good page followed by `lastPage`. -/
theorem fetch_follows_cursors_witness :
    get_all_downstate_publications [goodPage1, lastPage] =
      .ok ⟨[workFull, workNoYear], false, 2⟩ := by
  have hg : ∀ p ∈ [goodPage1], GoodPage p := by
    intro p hp
    rw [List.mem_singleton] at hp
    subst hp
    exact ⟨rfl, ⟨[workFull], rfl⟩, ⟨.val "abc"⟩, rfl, by decide⟩
  exact fetch_follows_cursors_until_none.2 [goodPage1] lastPage [workNoYear]
    ⟨.absent⟩ hg rfl rfl rfl rfl

/-- Claim C5, counterexample: on the empty row table line 74 raises
(`pd.DataFrame([])` has no `Year` column, so `df["Year"]` is a
`KeyError`), so an inverted range over the empty table is an error, not
the empty subset the claim promises for every table. -/
theorem yearFilter_empty_table_counterexample :
    yearFilterOnTable 2005 2003 ([] : List Row) = .error () := rfl

/-- Claim C5, amended: on a nonempty row table the year-range step is the
boolean mask and keeps exactly the rows whose `Year` is an integer in
`[lo, hi]`, with an inverted range (`lo > hi`) yielding the empty subset
rather than an error; on the empty table the `Year` column lookup itself
raises `KeyError`. -/
theorem yearFilter_exact_range_nonempty (lo hi : Int) (rows : List Row) :
    (rows ≠ [] → yearFilterOnTable lo hi rows = .ok (yearFilter lo hi rows)) ∧
    (rows = [] → yearFilterOnTable lo hi rows = .error ()) ∧
    (∀ r : Row, r ∈ yearFilter lo hi rows ↔
      r ∈ rows ∧ ∃ y, r.year = some y ∧ lo ≤ y ∧ y ≤ hi) ∧
    (lo > hi → yearFilter lo hi rows = []) := by
  refine ⟨?_, ?_, ?_, ?_⟩
  · intro h
    cases rows with
    | nil => exact absurd rfl h
    | cons a as => rfl
  · intro h
    subst h
    rfl
  · intro r
    rw [yearFilter, List.mem_filter]
    constructor
    · rintro ⟨hr, hp⟩
      refine ⟨hr, ?_⟩
      cases hy : r.year with
      | none =>
        rw [hy] at hp
        exact absurd hp (by simp)
      | some y =>
        rw [hy] at hp
        exact ⟨y, rfl, of_decide_eq_true hp⟩
    · rintro ⟨hr, y, hy, h1, h2⟩
      refine ⟨hr, ?_⟩
      rw [hy]
      exact decide_eq_true ⟨h1, h2⟩
  · intro hlt
    rw [yearFilter, List.filter_eq_nil_iff]
    intro r _
    cases hy : r.year with
    | none => simp
    | some y =>
      simp only [decide_eq_true_eq]
      omega

/-- Claim C5 witness: the amended theorem at a one-row table (the mask
applies and an inverted range is empty) and at the empty table (the
lookup errors). -/
theorem yearFilter_exact_range_nonempty_witness :
    yearFilterOnTable 2005 2003 [rowFull] =
      .ok (yearFilter 2005 2003 [rowFull]) ∧
    yearFilter 2005 2003 [rowFull] = [] ∧
    yearFilterOnTable 2005 2003 ([] : List Row) = .error () := by
  refine ⟨?_, ?_, ?_⟩
  · exact (yearFilter_exact_range_nonempty 2005 2003 [rowFull]).1 (by decide)
  · exact (yearFilter_exact_range_nonempty 2005 2003 [rowFull]).2.2.2 (by decide)
  · exact (yearFilter_exact_range_nonempty 2005 2003 []).2.1 rfl

/-- Claim C6, counterexample: a record with six authors keeps all six
display names in `Authors` and gets no "…" marker — the `Authors` join
never truncates. -/
theorem authors_no_truncation_counterexample :
    (process_data [workSixAuthors]).1.map (fun r => r.authors) =
      ["A1, A2, A3, A4, A5, A6"] := by
  decide

/-- Claim C6, amended: for a record with a non-empty `authorships` list
the `Authors` cell joins every author display name with ", " — no
five-name cap and no truncation marker — while a falsy `authorships`
yields "Unknown". -/
theorem authors_join_all :
    (∀ (w : RawWork) (row : Row) (l : List Authorship) (names : List String),
      makeEntry w = some row → w.authorships = .val l →
      authorNames l = some names →
      (l ≠ [] → row.authors = String.intercalate ", " names) ∧
      (l = [] → row.authors = "Unknown")) ∧
    (∀ (w : RawWork) (row : Row), makeEntry w = some row →
      (w.authorships = .absent ∨ w.authorships = .null) →
      row.authors = "Unknown") := by
  constructor
  · intro w row l names h hl hn
    have hcell := (makeEntry_inv h).2.2.2.1
    rw [hl] at hcell
    constructor
    · intro hne
      cases l with
      | nil => exact absurd rfl hne
      | cons a rest =>
        simp only [authorsCell] at hcell
        rw [hn, Option.map_some'] at hcell
        exact (Option.some_inj.mp hcell).symm
    · intro he
      subst he
      simp only [authorsCell] at hcell
      exact (Option.some_inj.mp hcell).symm
  · intro w row h hl
    have hcell := (makeEntry_inv h).2.2.2.1
    rcases hl with hl | hl <;> rw [hl] at hcell <;>
      simp only [authorsCell] at hcell <;>
      exact (Option.some_inj.mp hcell).symm

/-- Claim C6 witness: the amended theorem applied to the six-author
record (all six names joined, no marker) and to a record with no
`authorships` key ("Unknown"). -/
theorem authors_join_all_witness :
    rowSix.authors =
      String.intercalate ", " ["A1", "A2", "A3", "A4", "A5", "A6"] ∧
    rowNoAuthors.authors = "Unknown" := by
  constructor
  · have h := authors_join_all.1 workSixAuthors rowSix sixAuthorships
      ["A1", "A2", "A3", "A4", "A5", "A6"] (by decide) rfl (by decide)
    exact h.1 (by decide)
  · exact authors_join_all.2 workNoAuthors rowNoAuthors (by decide) (Or.inl rfl)

/-- Claim C7: the top-10 computation over the exploded `Topics` /
`Authors` columns is a pure function of the filtered subset (re-running it
on the same rows yields the same list), returns at most 10 entries, and
lists them in descending frequency order. -/
theorem topTen_deterministic_sorted (rows : List Row) :
    (topTenTopics rows = topTenTopics rows ∧
      topTenAuthors rows = topTenAuthors rows) ∧
    List.Sorted countGE (topTenTopics rows) ∧
    (topTenTopics rows).length ≤ 10 ∧
    List.Sorted countGE (topTenAuthors rows) ∧
    (topTenAuthors rows).length ≤ 10 := by
  refine ⟨⟨rfl, rfl⟩, ?_, ?_, ?_, ?_⟩
  · exact List.Pairwise.sublist (List.take_sublist 10 _)
      (sorted_sortByCountDesc (countOcc (explodeField (fun r => r.topics) rows)))
  · exact List.length_take_le 10 _
  · exact List.Pairwise.sublist (List.take_sublist 10 _)
      (sorted_sortByCountDesc (countOcc (explodeField (fun r => r.authors) rows)))
  · exact List.length_take_le 10 _

/-- Claim C8: a record with no `publication_year` that otherwise extracts
cleanly becomes a row with a null `Year`; the year-range mask rejects
every null-`Year` row, so each row of a filtered view has an integer
`Year` even when the full table does not. -/
theorem filtered_rows_have_year :
    (∀ (w : RawWork) (row : Row), w.publication_year = .absent →
      makeEntry w = some row → row.year = none) ∧
    (∀ (lo hi : Int) (rows : List Row) (r : Row),
      r ∈ yearFilter lo hi rows → ∃ y, r.year = some y) := by
  constructor
  · intro w row hw h
    have hy := (makeEntry_inv h).2.1
    rw [hy, hw]
    rfl
  · intro lo hi rows r hr
    rw [yearFilter, List.mem_filter] at hr
    cases hy : r.year with
    | none =>
      rw [hy] at hr
      exact absurd hr.2 (by simp)
    | some y => exact ⟨y, rfl⟩

/-- Claim C8 witness: the first conjunct at `workNoYear`, the second on a
one-row filtered table. -/
theorem filtered_rows_have_year_witness :
    rowNoYear.year = none ∧ ∃ y, rowFull.year = some y := by
  constructor
  · exact filtered_rows_have_year.1 workNoYear rowNoYear rfl (by decide)
  · exact filtered_rows_have_year.2 2000 2021 [rowFull] rowFull (by decide)

/-- Claim C9: a 200 response whose JSON body lacks `results` (or has it
null) or lacks `meta` makes the fetch loop raise an uncaught exception
instead of returning; and any run that returns without error consumed only
200 pages carrying both keys. -/
theorem fetch_missing_keys_raise :
    (∀ (r : ApiResponse) (rest : List ApiResponse), r.status = 200 →
      (r.results = .absent ∨ r.results = .null ∨
        r.meta = .absent ∨ r.meta = .null) →
      get_all_downstate_publications (r :: rest) = .error ()) ∧
    (∀ (script : List ApiResponse) (fr : FetchResult),
      get_all_downstate_publications script = .ok fr →
      ∀ (i : Nat) (r : ApiResponse), i < fr.requests → script.get? i = some r →
        r.status = 200 →
        (∃ v, r.results = .val v) ∧ ∃ m, r.meta = .val m) := by
  refine ⟨?_, get_all_ok_pages_wellformed⟩
  intro r rest h200 hbad
  rcases hbad with h | h | h | h
  · simp [get_all_downstate_publications, h200, h]
  · simp [get_all_downstate_publications, h200, h]
  · cases hres : r.results with
    | val v => simp [get_all_downstate_publications, h200, h, hres]
    | absent => simp [get_all_downstate_publications, h200, hres]
    | null => simp [get_all_downstate_publications, h200, hres]
  · cases hres : r.results with
    | val v => simp [get_all_downstate_publications, h200, h, hres]
    | absent => simp [get_all_downstate_publications, h200, hres]
    | null => simp [get_all_downstate_publications, h200, hres]

/-- Claim C9 witness: the missing-key branch at a concrete 200 response
with a null `results` body, and the well-formedness conjunct on a
successful one-page run. -/
theorem fetch_missing_keys_raise_witness :
    get_all_downstate_publications [nullResultsPage] = .error () ∧
    ((∃ v, lastPage.results = .val v) ∧ ∃ m, lastPage.meta = .val m) := by
  constructor
  · exact fetch_missing_keys_raise.1 nullResultsPage [] rfl (Or.inr (Or.inl rfl))
  · exact fetch_missing_keys_raise.2 [lastPage] ⟨[workNoYear], false, 1⟩ rfl 0
      lastPage (by decide) rfl rfl

/-- Claim C10: defaults apply only to absent keys — a null `open_access`
raises during extraction, so the whole record is skipped and one warning
is recorded; an absent `open_access` key defaults `OA` to false; a null
`title` is stored as a null `Title` cell, not as the "No title" default. -/
theorem defaults_only_for_absent_keys :
    (∀ (w : RawWork) (rest : List RawWork), w.open_access = .null →
      process_data (w :: rest) =
        ((process_data rest).1, (process_data rest).2 + 1)) ∧
    (∀ (w : RawWork) (row : Row), w.open_access = .absent →
      makeEntry w = some row → row.oa = some false) ∧
    (∀ (w : RawWork) (row : Row), w.title = .null →
      makeEntry w = some row → row.title = none) := by
  refine ⟨?_, ?_, ?_⟩
  · intro w rest hw
    have hnone : makeEntry w = none := by
      rw [makeEntry, hw]
      rfl
    simp [process_data, hnone]
  · intro w row hw h
    have hcell := (makeEntry_inv h).2.2.1
    rw [hw] at hcell
    simp only [oaCellOf] at hcell
    exact (Option.some_inj.mp hcell).symm
  · intro w row hw h
    have ht := (makeEntry_inv h).1
    rw [ht, hw]
    rfl

/-- Claim C10 witness: the three conjuncts at concrete records. -/
theorem defaults_only_for_absent_keys_witness :
    process_data [workNullOA] = ([], 1) ∧
    rowNoOAKey.oa = some false ∧ rowNullTitle.title = none := by
  refine ⟨?_, ?_, ?_⟩
  · exact defaults_only_for_absent_keys.1 workNullOA [] rfl
  · exact defaults_only_for_absent_keys.2.1 workNoOAKey rowNoOAKey rfl (by decide)
  · exact defaults_only_for_absent_keys.2.2 workNullTitle rowNullTitle rfl
      (by decide)

end Downstate
